import Mathlib

set_option maxHeartbeats 1000000
set_option maxRecDepth 4000

deriving instance DecidableEq for Except

namespace Syncd

/-! Shallow embedding of the syncd repository (src/codec.rs and src/main.rs).
Byte strings are modelled as `List Nat` with each element a byte value below 256;
machine-integer casts in the source become explicit `% 256` / `% 65536`. -/

/-- Wire packet type: `Package` from src/codec.rs (lines 5-12). -/
inductive Package
  | Message (id : List Nat) (payload : List Nat)
  | Subscribe (id : List Nat)
  | Unsubscribe (id : List Nat)
  | Ping (content : List Nat)
  | Pong (content : List Nat)
  deriving DecidableEq

/-- Body bytes written by `Codec::encode` (src/codec.rs lines 77-107) before the
length prefix: a tag byte, then for tags 0/1/2 a one-byte id length (`id.len() as u8`,
hence `% 256`) and the id bytes, then for Message the payload; Ping/Pong carry the
payload directly after the tag. -/
def encBody : Package → List Nat
  | .Message id msg => 0 :: (id.length % 256) :: (id ++ msg)
  | .Subscribe id => 1 :: (id.length % 256) :: id
  | .Unsubscribe id => 2 :: (id.length % 256) :: id
  | .Ping c => 3 :: c
  | .Pong c => 4 :: c

/-- The whole of `Codec::encode` (src/codec.rs lines 74-114): append to `dst` the
2-byte big-endian length (`bytes.len() as u16`, hence `% 65536`) followed by the body. -/
def encode (pkg : Package) (dst : List Nat) : List Nat :=
  let bytes := encBody pkg
  dst ++ ((bytes.length % 65536) / 256) :: (bytes.length % 256) :: bytes

/-- Parsing of one frame body, src/codec.rs lines 31-64: `buf` is the `size` bytes
split off the source, `src2` the bytes left in the source buffer afterwards.
`Except.error` models a Rust panic (`advance` past the end of the buffer). -/
def parseBody (buf src2 : List Nat) : Except String (Option Package) × List Nat :=
  match buf with
  | [] => (Except.error "advance out of bounds", src2)
  | tag :: buf1 =>
    if tag = 0 ∨ tag = 1 ∨ tag = 2 then
      match buf1 with
      | [] => (Except.error "advance out of bounds", src2)
      | idSize :: buf2 =>
        if buf2.length < idSize then (Except.ok none, src2)
        else
          if tag = 0 then (Except.ok (some (Package.Message (buf2.take idSize) (buf2.drop idSize))), src2)
          else if tag = 1 then (Except.ok (some (Package.Subscribe (buf2.take idSize))), src2)
          else (Except.ok (some (Package.Unsubscribe (buf2.take idSize))), src2)
    else if tag = 3 then (Except.ok (some (Package.Ping buf1)), src2)
    else if tag = 4 then (Except.ok (some (Package.Pong buf1)), src2)
    else (Except.ok none, src2)

/-- The whole of `Codec::decode` (src/codec.rs lines 20-68). The result pairs the
Rust return value with the buffer as the call leaves it. Note that `src.get_u16()`
CONSUMES the two length bytes: when the body is not yet complete the function
returns `Ok(None)` but the buffer has lost its first two bytes. -/
def decode (src : List Nat) : Except String (Option Package) × List Nat :=
  match src with
  | b0 :: b1 :: rest =>
    let size := b0 * 256 + b1
    if size > 0 ∧ rest.length ≥ size then
      parseBody (rest.take size) (rest.drop size)
    else (Except.ok none, rest)
  | _ => (Except.ok none, src)

/-- Length of the channel id carried by a packet (0 for Ping/Pong). -/
def pkgIdLen : Package → Nat
  | .Message id _ => id.length
  | .Subscribe id => id.length
  | .Unsubscribe id => id.length
  | .Ping _ => 0
  | .Pong _ => 0

/-- Discriminates the error (panic) outcome of a decode result. -/
def isErr {α : Type} : Except String α → Bool
  | .error _ => true
  | .ok _ => false

theorem decode_of_frame (body extra : List Nat) (h0 : 0 < body.length)
    (hlen : body.length ≤ 65535) :
    decode ((body.length % 65536 / 256) :: (body.length % 256) :: (body ++ extra))
      = parseBody body extra := by
  have hsize : body.length % 65536 / 256 * 256 + body.length % 256 = body.length := by
    omega
  simp only [decode, hsize]
  rw [if_pos ⟨h0, by simp [List.length_append]⟩]
  rw [List.take_left, List.drop_left]

theorem decode_encode_roundtrip (pkg : Package) (hid : pkgIdLen pkg ≤ 255)
    (hlen : (encBody pkg).length ≤ 65535) :
    decode (encode pkg []) = (Except.ok (some pkg), []) := by
  have h0 : 0 < (encBody pkg).length := by cases pkg <;> simp [encBody]
  have hframe := decode_of_frame (encBody pkg) [] h0 hlen
  rw [List.append_nil] at hframe
  have henc : encode pkg []
      = ((encBody pkg).length % 65536 / 256) :: ((encBody pkg).length % 256) :: encBody pkg := by
    simp [encode]
  rw [henc, hframe]
  cases pkg with
  | Message id msg =>
    simp only [pkgIdLen] at hid
    have hidm : id.length % 256 = id.length := Nat.mod_eq_of_lt (by omega)
    have hns : ¬((id ++ msg).length < id.length) := by simp [List.length_append]
    simp [encBody, parseBody, hidm, hns, List.take_left, List.drop_left]
  | Subscribe id =>
    simp only [pkgIdLen] at hid
    have hidm : id.length % 256 = id.length := Nat.mod_eq_of_lt (by omega)
    simp [encBody, parseBody, hidm]
  | Unsubscribe id =>
    simp only [pkgIdLen] at hid
    have hidm : id.length % 256 = id.length := Nat.mod_eq_of_lt (by omega)
    simp [encBody, parseBody, hidm]
  | Ping c =>
    simp [encBody, parseBody]
  | Pong c =>
    simp [encBody, parseBody]

/-- C1: on an input holding the 2-byte length prefix but an incomplete body, the
claim says decode leaves the buffer untouched so that splitting an encoded stream
at any boundary is equivalent to decoding it whole. The code instead consumes the
two length bytes (`src.get_u16()` advances the buffer): for the 7-byte Ping frame
`[0,5,3,1,2,3,4]` split after 4 bytes, the first call returns incomplete but leaves
`[3,1]`, and the follow-up call misreads `3*256+1 = 769` as a frame length, so the
split decoding never produces the Ping that whole-buffer decoding produces. -/
theorem c1_incomplete_body_consumes_length_bytes :
    encode (Package.Ping [1, 2, 3, 4]) [] = [0, 5, 3, 1, 2, 3, 4] ∧
    decode [0, 5, 3, 1, 2, 3, 4] = (Except.ok (some (Package.Ping [1, 2, 3, 4])), []) ∧
    decode [0, 5, 3, 1] = (Except.ok none, [3, 1]) ∧
    decode ([3, 1] ++ [2, 3, 4]) = (Except.ok none, [2, 3, 4]) := by
  refine ⟨by decide, by decide, by decide, by decide⟩

/-- C2 counterexample: the frame `[0,1,5]` is structurally complete (length 1,
body the single tag byte 5, not in 0..4), yet decode returns `Ok(None)` with the
frame consumed — not an `Err` result as the claim states. -/
theorem c2_counterexample_unknown_tag_not_error :
    decode [0, 1, 5] = (Except.ok none, []) ∧ isErr (decode [0, 1, 5]).1 = false := by
  decide

/-- C2 amended: on any structurally complete frame whose tag is not in 0..4, decode
consumes the whole frame and returns `Ok(None)` — neither a packet nor an error —
silently skipping the frame and resynchronizing at the next frame boundary. -/
theorem c2_unknown_tag_silently_skipped (t : Nat) (body extra : List Nat)
    (ht : 5 ≤ t) (hlen : body.length + 1 ≤ 65535) :
    decode (((body.length + 1) % 65536 / 256) :: ((body.length + 1) % 256)
        :: t :: (body ++ extra))
      = (Except.ok none, extra) := by
  have h := decode_of_frame (t :: body) extra (by simp) (by simp; omega)
  simp only [List.length_cons, List.cons_append] at h
  rw [h]
  simp only [parseBody]
  rw [if_neg (by omega), if_neg (by omega), if_neg (by omega)]

/-- C2 amended, witness at tag 5. -/
theorem c2_unknown_tag_witness : decode [0, 2, 5, 9, 11] = (Except.ok none, [11]) :=
  c2_unknown_tag_silently_skipped 5 [9] [11] (by decide) (by decide)

/-- C5: for every packet variant, every channel-id length up to 255 and every
payload length that keeps the frame body within the 65535-byte frame maximum,
encoding the packet and decoding the produced bytes from an otherwise empty
buffer reproduces the original packet exactly and consumes the whole buffer. -/
theorem c5_encode_decode_round_trip (pkg : Package)
    (hid : pkgIdLen pkg ≤ 255) (hlen : (encBody pkg).length ≤ 65535) :
    decode (encode pkg []) = (Except.ok (some pkg), []) :=
  decode_encode_roundtrip pkg hid hlen

/-- C5 witness: round trip of a concrete Message packet. -/
theorem c5_round_trip_witness :
    decode (encode (Package.Message [1] [2, 3]) [])
      = (Except.ok (some (Package.Message [1] [2, 3])), []) :=
  c5_encode_decode_round_trip (Package.Message [1] [2, 3]) (by decide) (by decide)

theorem decode_encode_id_overflow (id : List Nat) (h : id.length = 256) :
    decode (encode (Package.Subscribe id) [])
      = (Except.ok (some (Package.Subscribe [])), []) := by
  have hb : encBody (Package.Subscribe id) = 1 :: 0 :: id := by
    simp [encBody, h]
  have hf := decode_of_frame (1 :: 0 :: id) [] (by simp) (by simp [h])
  rw [List.append_nil] at hf
  have hlen : (1 :: 0 :: id).length = 258 := by simp [h]
  rw [hlen] at hf
  have henc : encode (Package.Subscribe id) [] = 1 :: 2 :: 1 :: 0 :: id := by
    rw [encode, hb]
    simp [h]
  rw [henc]
  norm_num at hf
  rw [hf]
  simp [parseBody]

theorem decode_encode_len_overflow (c : List Nat) (h : c.length = 65535) :
    decode (encode (Package.Ping c) []) = (Except.ok none, 3 :: c) := by
  have henc : encode (Package.Ping c) [] = 0 :: 0 :: 3 :: c := by
    rw [encode]
    simp [encBody, h]
  rw [henc]
  simp [decode]

/-- C10: encode enforces no size limits — the id-length byte is the id length
modulo 256 and the frame-length field is the body length modulo 65536, so a
256-byte channel id round-trips to an empty id and a 65535-byte Ping payload
yields a frame whose length field is 0, which decode misparses (no packet, the
entire body left in the buffer); the round trip of C5 holds exactly under the
preconditions id length at most 255 and body length at most 65535. -/
theorem c10_encode_unenforced_limits :
    (∀ id : List Nat, encode (Package.Subscribe id) []
        = ((id.length + 2) % 65536 / 256) :: ((id.length + 2) % 256)
          :: 1 :: (id.length % 256) :: id) ∧
    decode (encode (Package.Subscribe (List.replicate 256 7)) [])
      = (Except.ok (some (Package.Subscribe [])), []) ∧
    decode (encode (Package.Ping (List.replicate 65535 0)) [])
      = (Except.ok none, 3 :: List.replicate 65535 0) ∧
    (∀ pkg : Package, pkgIdLen pkg ≤ 255 → (encBody pkg).length ≤ 65535 →
      decode (encode pkg []) = (Except.ok (some pkg), [])) := by
  refine ⟨?_, ?_, ?_, fun pkg h1 h2 => decode_encode_roundtrip pkg h1 h2⟩
  · intro id
    simp [encode, encBody]
  · exact decode_encode_id_overflow (List.replicate 256 7) (List.length_replicate 256 7)
  · exact decode_encode_len_overflow (List.replicate 65535 0) (List.length_replicate 65535 0)

/-- C10 witness: a small Subscribe packet within the limits round-trips. -/
theorem c10_limits_witness :
    decode (encode (Package.Subscribe [5]) [])
      = (Except.ok (some (Package.Subscribe [5])), []) :=
  c10_encode_unenforced_limits.2.2.2 (Package.Subscribe [5]) (by decide) (by decide)

/-! Embedding of src/main.rs. Filesystem paths are modelled at the level of Rust
`Path::components()`: a path is the list of its components. -/

/-- A single path component as yielded by `Path::components()` on Unix. -/
inductive Comp
  | rootDir
  | curDir
  | parentDir
  | normal (s : String)
  deriving DecidableEq

/-- Rust `Path::is_absolute` on Unix: the path has a root. -/
def isAbsolutePath (p : List Comp) : Bool := p.head? = some Comp.rootDir

/-- Rust `PathBuf::join`: an absolute right operand replaces the left operand. -/
def pjoin (a b : List Comp) : List Comp := if isAbsolutePath b then b else a ++ b

/-- Component-wise prefix test: `compIsPre base p` holds when `base` is a prefix
of `p`, which is Rust `p.starts_with(base)`. -/
def compIsPre : List Comp → List Comp → Bool
  | [], _ => true
  | _ :: _, [] => false
  | a :: as, b :: bs => a = b && compIsPre as bs

/-- Rust `Path::strip_prefix`, as `Option`: the suffix of `p` after `base`. -/
def strip_pre (p base : List Comp) : Option (List Comp) :=
  if compIsPre base p then some (p.drop base.length) else none

/-- Worker loop of the `clean` function of the path-clean crate (used as
`.clean()` in main.rs): current-dir components are dropped; a parent-dir
component is dropped right after the root, pops a preceding normal component,
and is kept otherwise; all other components are appended. -/
def cleanAux : List Comp → List Comp → List Comp
  | out, [] => out
  | out, Comp.curDir :: rest => cleanAux out rest
  | out, Comp.parentDir :: rest =>
    match out.getLast? with
    | some Comp.rootDir => cleanAux out rest
    | some (Comp.normal _) => cleanAux out.dropLast rest
    | _ => cleanAux (out ++ [Comp.parentDir]) rest
  | out, c :: rest => cleanAux (out ++ [c]) rest

/-- In the path-clean crate, `clean`: an empty result becomes `"."`. -/
def clean (p : List Comp) : List Comp :=
  let out := cleanAux [] p
  if out.isEmpty then [Comp.curDir] else out

/-- The `EntityType` enum of src/main.rs (lines 36-41). -/
inductive EntityType
  | File
  | Directory
  | Symlink
  deriving DecidableEq

/-- The `ListRespEntry` struct of src/main.rs (lines 43-48). -/
structure ListRespEntry where
  path : List Comp
  hash : Nat
  entity : EntityType
  deriving DecidableEq

/-- The `Protocol` enum of src/main.rs (lines 50-65). -/
inductive Protocol
  | Ping
  | Pong
  | List (path : List Comp)
  | ListResp (entries : List ListRespEntry)
  | Get (path : List Comp)
  | GetResp (path : List Comp) (contents : List Nat)
  | FsEventCreate (path : List Comp) (entity : EntityType)
  | FsEventModify (path : List Comp) (hash : Nat)
  | FsEventRename (path_from : List Comp) (path_to : List Comp)
  | FsEventDelete (path : List Comp)
  | FsEventUnknown (path : List Comp) (entity : EntityType) (hash : Nat)
  deriving DecidableEq

/-- Rust `std::fs::FileType`, collapsed to the three predicates the code calls. -/
inductive FType
  | file
  | directory
  | symlink
  | other
  deriving DecidableEq

def FType.is_file : FType → Bool
  | .file => true
  | _ => false

def FType.is_dir : FType → Bool
  | .directory => true
  | _ => false

def FType.is_symlink : FType → Bool
  | .symlink => true
  | _ => false

/-- Abstract filesystem state: `read p` is the byte content of `p` when
`fs::read` succeeds there (`none` = the `Err` case), and `readDir p` the dirent
list — full entry path plus file type — when `fs::read_dir` and the per-entry
unwraps succeed (`none` = any of them fails). -/
structure FS where
  read : List Comp → Option (List Nat)
  readDir : List Comp → Option (List (List Comp × FType))

/-- The `hash_file` function of src/main.rs (lines 67-79). The external XxHash64
digest is abstracted as `hashFn`; a failed read is logged and hashes to 0. -/
def hash_file (hashFn : List Nat → Nat) (fs : FS) (path : List Comp) : Nat :=
  match fs.read path with
  | some data => hashFn data
  | none => 0

/-- The `path_escapes_dir` function of src/main.rs (lines 81-83). -/
def path_escapes_dir (path dir : List Comp) : Bool := !(compIsPre dir path)

/-- The `list_path` function of src/main.rs (lines 85-93): `Except.error` models
the panic of the `unwrap` calls when the directory read fails. -/
def list_path (fs : FS) (path : List Comp) : Except String (List (List Comp × FType)) :=
  match fs.readDir path with
  | some dirents => Except.ok dirents
  | none => Except.error "list_path unwrap on read_dir failure"

/-- The per-dirent body of the loop in the `Protocol::List` arm of
`handle_message` (src/main.rs lines 106-123): classify the entity, strip the
sync-root prefix (`expect` panics when it is not a prefix), hash the entry. -/
def mkEntries (hashFn : List Nat → Nat) (fs : FS) (syncdir : List Comp) :
    List (List Comp × FType) → Except String (List ListRespEntry)
  | [] => Except.ok []
  | (listpath, ftype) :: rest =>
    let entity :=
      if ftype.is_file then EntityType.File
      else if ftype.is_dir then EntityType.Directory
      else if ftype.is_symlink then EntityType.Symlink
      else EntityType.File
    match strip_pre listpath syncdir with
    | none => Except.error "Path does not contain syncdir prefix"
    | some strippath =>
      match mkEntries hashFn fs syncdir rest with
      | Except.error e => Except.error e
      | Except.ok es =>
        Except.ok ({ path := strippath, hash := hash_file hashFn fs listpath,
                     entity := entity } :: es)

/-- The `handle_message` function of src/main.rs (lines 95-142). `Except.error`
models a panic; `Except.ok none` is the no-response outcome. -/
def handle_message (hashFn : List Nat → Nat) (fs : FS) (message : Protocol)
    (syncdir : List Comp) : Except String (Option Protocol) :=
  match message with
  | Protocol.Ping => Except.ok (some Protocol.Pong)
  | Protocol.List path =>
    let watchpath := clean (pjoin syncdir path)
    if path_escapes_dir watchpath syncdir then Except.ok none
    else
      match list_path fs watchpath with
      | Except.error e => Except.error e
      | Except.ok paths =>
        match mkEntries hashFn fs syncdir paths with
        | Except.error e => Except.error e
        | Except.ok entries => Except.ok (some (Protocol.ListResp entries))
  | Protocol.Get path =>
    let watchpath := clean (pjoin syncdir path)
    if path_escapes_dir watchpath syncdir then Except.ok none
    else
      match fs.read watchpath with
      | some data => Except.ok (some (Protocol.GetResp path data))
      | none => Except.ok none
  | _ => Except.ok none

/-- Filesystem-notification kinds, collapsing the event taxonomy of the notify crate
to the match arms of `handle_fs_event` (src/main.rs lines 150-161). -/
inductive EventKind
  | createFile
  | createFolder
  | modifyData
  | modifyNameBoth
  | remove
  | other
  deriving DecidableEq

/-- A notify event: a kind plus the affected paths (absolute). -/
structure Event where
  kind : EventKind
  paths : List (List Comp)
  deriving DecidableEq

/-- The `handle_fs_event` function of src/main.rs (lines 144-162); `cwd` is the
process working directory obtained from `env::current_dir()`. -/
def handle_fs_event (hashFn : List Nat → Nat) (fs : FS) (cwd : List Comp)
    (event : Event) (syncdir : List Comp) : Except String (Option Protocol) :=
  let fullpath := pjoin cwd syncdir
  match event.paths.head? with
  | none => Except.error "index out of bounds on event paths"
  | some path =>
    match strip_pre path fullpath with
    | none => Except.error "Path escapes watched directory"
    | some strippath =>
      match event.kind with
      | EventKind.createFile =>
        Except.ok (some (Protocol.FsEventCreate strippath EntityType.File))
      | EventKind.createFolder =>
        Except.ok (some (Protocol.FsEventCreate strippath EntityType.Directory))
      | EventKind.modifyData =>
        Except.ok (some (Protocol.FsEventModify strippath (hash_file hashFn fs path)))
      | EventKind.modifyNameBoth =>
        match event.paths[1]? with
        | none => Except.error "index out of bounds on event paths"
        | some path_to =>
          match strip_pre path_to fullpath with
          | none => Except.error "Target path escapes watched directory"
          | some strippath_to =>
            Except.ok (some (Protocol.FsEventRename strippath strippath_to))
      | EventKind.remove => Except.ok (some (Protocol.FsEventDelete strippath))
      | EventKind.other => Except.ok none

/-- One decoded item arriving from the network side of the select loop: a packet
or a framed-stream error. -/
inductive NetIn
  | pkg (p : Package)
  | err (e : String)

/-- One ready arm of the `tokio::select!` in `event_handler` (src/main.rs lines
171-205): a network item, a watcher event, or both sources exhausted. -/
inductive RouterIn
  | net (r : NetIn)
  | fsEv (e : Event)
  | closed

/-- One iteration of the select loop in `event_handler` (src/main.rs lines
171-205): the packets written during the iteration, and the boolean the
iteration yields (`true` keeps the loop running). The external ciborium
serializer is abstracted as `deser` / `ser`; `deser` returning `none` models a
payload the `unwrap` on deserialization panics on. -/
def routerStep (hashFn : List Nat → Nat) (fs : FS) (cwd : List Comp)
    (deser : List Nat → Option Protocol) (ser : Protocol → List Nat)
    (syncdir : List Comp) (chan : List Nat) :
    RouterIn → Except String (List Package × Bool)
  | RouterIn.net (NetIn.pkg (Package.Ping payload)) =>
    Except.ok ([Package.Pong payload], true)
  | RouterIn.net (NetIn.pkg (Package.Message channel payload)) =>
    match deser payload with
    | none => Except.error "deserialization unwrap failure"
    | some m =>
      match handle_message hashFn fs m syncdir with
      | Except.error e => Except.error e
      | Except.ok none => Except.ok ([], true)
      | Except.ok (some response) =>
        Except.ok ([Package.Message channel (ser response)], true)
  | RouterIn.net (NetIn.pkg _) => Except.ok ([], true)
  | RouterIn.net (NetIn.err _) => Except.ok ([], true)
  | RouterIn.fsEv event =>
    match handle_fs_event hashFn fs cwd event syncdir with
    | Except.error e => Except.error e
    | Except.ok none => Except.ok ([], true)
    | Except.ok (some response) =>
      Except.ok ([Package.Message chan (ser response)], true)
  | RouterIn.closed => Except.ok ([], false)

/-- The `while let true = tokio::select!` loop of `event_handler`, run over a
finite trace of ready events: all packets written, in order, plus the panic
message if an iteration panics. -/
def runLoop (hashFn : List Nat → Nat) (fs : FS) (cwd : List Comp)
    (deser : List Nat → Option Protocol) (ser : Protocol → List Nat)
    (syncdir : List Comp) (chan : List Nat) :
    List RouterIn → List Package × Option String
  | [] => ([], none)
  | i :: rest =>
    match routerStep hashFn fs cwd deser ser syncdir chan i with
    | Except.error e => ([], some e)
    | Except.ok (outs, b) =>
      if b then
        let (more, e) := runLoop hashFn fs cwd deser ser syncdir chan rest
        (outs ++ more, e)
      else (outs, none)

/-- The `event_handler` function of src/main.rs (lines 164-206): connect, send
one Subscribe for the configured channel, then run the select loop. -/
def event_handler (hashFn : List Nat → Nat) (fs : FS) (cwd : List Comp)
    (deser : List Nat → Option Protocol) (ser : Protocol → List Nat)
    (syncdir : List Comp) (chan : List Nat) (inputs : List RouterIn) :
    List Package × Option String :=
  let (outs, e) := runLoop hashFn fs cwd deser ser syncdir chan inputs
  (Package.Subscribe chan :: outs, e)

/-! Concrete fixtures for witnesses: a sync root `/r` containing `a` (readable,
contents `[1]`) and `b` (present in the directory listing but unreadable). -/

/-- Witness sync root `/r`. -/
def wRoot : List Comp := [Comp.rootDir, Comp.normal "r"]

/-- Witness hash function: any successfully read content hashes to a nonzero
value. -/
def wHash : List Nat → Nat := fun d => d.length + 42

/-- Witness path `/r/a`. -/
def aP : List Comp := [Comp.rootDir, Comp.normal "r", Comp.normal "a"]

/-- Witness path `/r/b`. -/
def bP : List Comp := [Comp.rootDir, Comp.normal "r", Comp.normal "b"]

/-- Witness filesystem: `/r` lists `a` and `b`; only `a` is readable. -/
def wFS : FS where
  read := fun p => if p = aP then some [1] else none
  readDir := fun p =>
    if p = wRoot then some [(aP, FType.file), (bP, FType.file)] else none

/-- Witness deserializer: every payload decodes to a Ping request. -/
def wDeser : List Nat → Option Protocol := fun _ => some Protocol.Ping

/-- Witness serializer. -/
def wSer : Protocol → List Nat := fun _ => [7]

/-- C4: a List or Get request whose path, joined to the sync root and cleaned,
is no longer prefixed by the root gets no response; when the cleaned path stays
inside the root the request proceeds to the filesystem access of its arm. -/
theorem c4_path_containment (hashFn : List Nat → Nat) (fs : FS)
    (syncdir path : List Comp) :
    (path_escapes_dir (clean (pjoin syncdir path)) syncdir = true →
      handle_message hashFn fs (Protocol.List path) syncdir = Except.ok none ∧
      handle_message hashFn fs (Protocol.Get path) syncdir = Except.ok none) ∧
    (path_escapes_dir (clean (pjoin syncdir path)) syncdir = false →
      handle_message hashFn fs (Protocol.Get path) syncdir =
        (match fs.read (clean (pjoin syncdir path)) with
         | some data => Except.ok (some (Protocol.GetResp path data))
         | none => Except.ok none) ∧
      handle_message hashFn fs (Protocol.List path) syncdir =
        (match list_path fs (clean (pjoin syncdir path)) with
         | Except.error e => Except.error e
         | Except.ok paths =>
           match mkEntries hashFn fs syncdir paths with
           | Except.error e => Except.error e
           | Except.ok entries => Except.ok (some (Protocol.ListResp entries)))) := by
  constructor
  · intro h
    constructor <;> simp [handle_message, h]
  · intro h
    constructor <;> simp [handle_message, h]

/-- C4 witness: for root `/r`, the requests `List ..` and `Get ../../etc`
yield no response, while `Get a` inside the root proceeds and answers. -/
theorem c4_containment_witness :
    handle_message wHash wFS (Protocol.List [Comp.parentDir]) wRoot = Except.ok none ∧
    handle_message wHash wFS
        (Protocol.Get [Comp.parentDir, Comp.parentDir, Comp.normal "etc"]) wRoot
      = Except.ok none ∧
    handle_message wHash wFS (Protocol.Get [Comp.normal "a"]) wRoot
      = Except.ok (some (Protocol.GetResp [Comp.normal "a"] [1])) := by
  refine ⟨((c4_path_containment wHash wFS wRoot [Comp.parentDir]).1 (by decide)).1,
    ((c4_path_containment wHash wFS wRoot
        [Comp.parentDir, Comp.parentDir, Comp.normal "etc"]).1 (by decide)).2, ?_⟩
  exact ((c4_path_containment wHash wFS wRoot [Comp.normal "a"]).2 (by decide)).1.trans
    (by decide)

/-- C9: a List request that passes the containment check but whose resolved path
is not a readable directory panics (the unwrap in list_path), while a Get on the
very same path merely returns no response. -/
theorem c9_list_read_dir_panic :
    path_escapes_dir (clean (pjoin wRoot [Comp.normal "missing"])) wRoot = false ∧
    handle_message wHash wFS (Protocol.List [Comp.normal "missing"]) wRoot
      = Except.error "list_path unwrap on read_dir failure" ∧
    handle_message wHash wFS (Protocol.Get [Comp.normal "missing"]) wRoot
      = Except.ok none := by
  decide

/-- C8: on a failed file read, hash_file substitutes hash 0 (and list building
keeps going: one entry per child, failing entries carrying hash 0), so a List
whose directory read succeeds still returns the full ListResp, whereas a Get
whose file read fails drops the whole response and returns nothing. -/
theorem c8_read_failure_policy (hashFn : List Nat → Nat) (fs : FS)
    (syncdir path : List Comp) :
    (∀ p, fs.read p = none → hash_file hashFn fs p = 0) ∧
    (∀ p d, fs.read p = some d → hash_file hashFn fs p = hashFn d) ∧
    (∀ ents : List (List Comp × FType),
      (∀ e ∈ ents, compIsPre syncdir e.1 = true) →
      ∃ es, mkEntries hashFn fs syncdir ents = Except.ok es ∧
        es.length = ents.length ∧
        ∀ i (h1 : i < ents.length) (h2 : i < es.length),
          fs.read (ents.get ⟨i, h1⟩).1 = none → (es.get ⟨i, h2⟩).hash = 0) ∧
    (∀ ents, fs.readDir (clean (pjoin syncdir path)) = some ents →
      path_escapes_dir (clean (pjoin syncdir path)) syncdir = false →
      handle_message hashFn fs (Protocol.List path) syncdir
        = (mkEntries hashFn fs syncdir ents).map
            (fun es => some (Protocol.ListResp es))) ∧
    (path_escapes_dir (clean (pjoin syncdir path)) syncdir = false →
      fs.read (clean (pjoin syncdir path)) = none →
      handle_message hashFn fs (Protocol.Get path) syncdir = Except.ok none) := by
  refine ⟨?_, ?_, ?_, ?_, ?_⟩
  · intro p h
    simp [hash_file, h]
  · intro p d h
    simp [hash_file, h]
  · intro ents
    induction ents with
    | nil =>
      intro _
      exact ⟨[], rfl, rfl, fun i h1 _ _ => absurd h1 (by simp)⟩
    | cons hd tl ih =>
      intro hpre
      obtain ⟨es, hes, hlen, hhash⟩ := ih (fun e he => hpre e (List.mem_cons_of_mem hd he))
      obtain ⟨listpath, ftype⟩ := hd
      have hp : compIsPre syncdir listpath = true := hpre (listpath, ftype) (List.mem_cons_self _ _)
      refine ⟨{ path := listpath.drop syncdir.length,
                hash := hash_file hashFn fs listpath,
                entity := if ftype.is_file then EntityType.File
                  else if ftype.is_dir then EntityType.Directory
                  else if ftype.is_symlink then EntityType.Symlink
                  else EntityType.File } :: es, ?_, by simp [hlen], ?_⟩
      · simp [mkEntries, strip_pre, hp, hes]
      · intro i h1 h2 hread
        match i with
        | 0 =>
          simp only [List.get] at hread ⊢
          simp [hash_file, hread]
        | Nat.succ j =>
          exact hhash j (by simpa using h1) (by simpa using h2) (by simpa using hread)
  · intro ents hread hesc
    rcases hmk : mkEntries hashFn fs syncdir ents with e | es <;>
      simp [handle_message, hesc, list_path, hread, hmk, Except.map]
  · intro hesc hread
    simp [handle_message, hesc, hread]

/-- C8 witness: in the fixture root, `b` is unreadable — List still answers with
both entries and hash 0 for `b`, while a Get of an unreadable path returns
nothing. -/
theorem c8_read_failure_witness :
    hash_file wHash wFS bP = 0 ∧
    handle_message wHash wFS (Protocol.List [Comp.curDir]) wRoot
      = Except.ok (some (Protocol.ListResp
          [⟨[Comp.normal "a"], 43, EntityType.File⟩,
           ⟨[Comp.normal "b"], 0, EntityType.File⟩])) ∧
    handle_message wHash wFS (Protocol.Get [Comp.normal "missing"]) wRoot
      = Except.ok none := by
  refine ⟨(c8_read_failure_policy wHash wFS wRoot [Comp.curDir]).1 bP (by decide), ?_, ?_⟩
  · exact ((c8_read_failure_policy wHash wFS wRoot [Comp.curDir]).2.2.2.1
      [(aP, FType.file), (bP, FType.file)] (by decide) (by decide)).trans (by decide)
  · exact (c8_read_failure_policy wHash wFS wRoot [Comp.normal "missing"]).2.2.2.2
      (by decide) (by decide)

/-- C3 counterexample: a decode error from the framed stream does not tear the
session down — the error iteration emits nothing and yields true, and a Ping
arriving after the error is still answered by the loop. -/
theorem c3_counterexample_error_not_fatal :
    routerStep wHash wFS [] wDeser wSer wRoot [1] (RouterIn.net (NetIn.err "bad frame"))
      = Except.ok ([], true) ∧
    runLoop wHash wFS [] wDeser wSer wRoot [1]
        [RouterIn.net (NetIn.err "bad frame"), RouterIn.net (NetIn.pkg (Package.Ping [2]))]
      = ([Package.Pong [2]], none) := by
  constructor
  · rfl
  · rfl

/-- C3 amended: a decode error on the stream is only logged — the iteration
sends nothing, the loop keeps running, and the rest of the trace is processed
exactly as if the error had not occurred. -/
theorem c3_decode_error_only_logged (hashFn : List Nat → Nat) (fs : FS)
    (cwd : List Comp) (deser : List Nat → Option Protocol) (ser : Protocol → List Nat)
    (syncdir : List Comp) (chan : List Nat) (e : String) (rest : List RouterIn) :
    routerStep hashFn fs cwd deser ser syncdir chan (RouterIn.net (NetIn.err e))
      = Except.ok ([], true) ∧
    runLoop hashFn fs cwd deser ser syncdir chan (RouterIn.net (NetIn.err e) :: rest)
      = runLoop hashFn fs cwd deser ser syncdir chan rest := by
  constructor
  · rfl
  · simp [runLoop, routerStep]

/-- C6: an inbound Message whose payload deserializes to a Protocol message is
passed to handle_message; when the handler returns a response the router sends
it as a Message on the channel id the request arrived on — the configured
channel `chan` plays no part — and when the handler returns nothing, nothing is
sent. -/
theorem c6_response_on_request_channel (hashFn : List Nat → Nat) (fs : FS)
    (cwd : List Comp) (deser : List Nat → Option Protocol) (ser : Protocol → List Nat)
    (syncdir : List Comp) (chan channel payload : List Nat) (m : Protocol)
    (hdes : deser payload = some m) :
    (∀ resp, handle_message hashFn fs m syncdir = Except.ok (some resp) →
      routerStep hashFn fs cwd deser ser syncdir chan
          (RouterIn.net (NetIn.pkg (Package.Message channel payload)))
        = Except.ok ([Package.Message channel (ser resp)], true)) ∧
    (handle_message hashFn fs m syncdir = Except.ok none →
      routerStep hashFn fs cwd deser ser syncdir chan
          (RouterIn.net (NetIn.pkg (Package.Message channel payload)))
        = Except.ok ([], true)) := by
  constructor
  · intro resp hr
    simp [routerStep, hdes, hr]
  · intro hr
    simp [routerStep, hdes, hr]

/-- C6 witness: a request arriving on channel id 9 is answered on channel id 9
even though the configured channel of the session is 1. -/
theorem c6_request_channel_witness :
    routerStep wHash wFS [] wDeser wSer wRoot [1]
        (RouterIn.net (NetIn.pkg (Package.Message [9] [0])))
      = Except.ok ([Package.Message [9] (wSer Protocol.Pong)], true) :=
  (c6_response_on_request_channel wHash wFS [] wDeser wSer wRoot [1] [9] [0]
      Protocol.Ping rfl).1 Protocol.Pong (by decide)

/-- Discriminates Subscribe packets. -/
def isSubscribePkg : Package → Bool
  | Package.Subscribe _ => true
  | _ => false

theorem no_sub_of_ok {X outs : List Package} {c b : Bool}
    (h : (Except.ok (X, c) : Except String (List Package × Bool)) = Except.ok (outs, b))
    (hX : X.filter isSubscribePkg = []) : outs.filter isSubscribePkg = [] := by
  obtain ⟨h1, _⟩ := Prod.mk.inj (Except.ok.inj h)
  exact h1 ▸ hX

theorem routerStep_no_subscribe (hashFn : List Nat → Nat) (fs : FS) (cwd : List Comp)
    (deser : List Nat → Option Protocol) (ser : Protocol → List Nat)
    (syncdir : List Comp) (chan : List Nat) (i : RouterIn) (outs : List Package)
    (b : Bool)
    (h : routerStep hashFn fs cwd deser ser syncdir chan i = Except.ok (outs, b)) :
    outs.filter isSubscribePkg = [] := by
  cases i with
  | net r =>
    cases r with
    | pkg p =>
      cases p with
      | Message channel payload =>
        simp only [routerStep] at h
        split at h
        · exact Except.noConfusion h
        · split at h
          · exact Except.noConfusion h
          · exact no_sub_of_ok h rfl
          · exact no_sub_of_ok h rfl
      | Subscribe id =>
        simp only [routerStep] at h
        exact no_sub_of_ok h rfl
      | Unsubscribe id =>
        simp only [routerStep] at h
        exact no_sub_of_ok h rfl
      | Ping payload =>
        simp only [routerStep] at h
        exact no_sub_of_ok h rfl
      | Pong payload =>
        simp only [routerStep] at h
        exact no_sub_of_ok h rfl
    | err e =>
      simp only [routerStep] at h
      exact no_sub_of_ok h rfl
  | fsEv event =>
    simp only [routerStep] at h
    split at h
    · exact Except.noConfusion h
    · exact no_sub_of_ok h rfl
    · exact no_sub_of_ok h rfl
  | closed =>
    simp only [routerStep] at h
    exact no_sub_of_ok h rfl

theorem runLoop_no_subscribe (hashFn : List Nat → Nat) (fs : FS) (cwd : List Comp)
    (deser : List Nat → Option Protocol) (ser : Protocol → List Nat)
    (syncdir : List Comp) (chan : List Nat) :
    ∀ inputs : List RouterIn,
      (runLoop hashFn fs cwd deser ser syncdir chan inputs).1.filter isSubscribePkg = []
  | [] => by simp [runLoop]
  | i :: rest => by
    have hrec := runLoop_no_subscribe hashFn fs cwd deser ser syncdir chan rest
    rcases hr : routerStep hashFn fs cwd deser ser syncdir chan i with e | ob
    · simp [runLoop, hr]
    · obtain ⟨outs, b⟩ := ob
      have hout := routerStep_no_subscribe hashFn fs cwd deser ser syncdir chan i outs b hr
      cases b
      · simp [runLoop, hr, hout]
      · simp [runLoop, hr, List.filter_append, hout, hrec]

/-- C7: the packet trace of a session starts with the Subscribe for the
configured channel — it is at the head, before any other packet and before any
network or watcher input is processed — and it is the only Subscribe the
session ever sends. -/
theorem c7_subscribe_first_and_once (hashFn : List Nat → Nat) (fs : FS)
    (cwd : List Comp) (deser : List Nat → Option Protocol) (ser : Protocol → List Nat)
    (syncdir : List Comp) (chan : List Nat) (inputs : List RouterIn) :
    (event_handler hashFn fs cwd deser ser syncdir chan inputs).1.head?
      = some (Package.Subscribe chan) ∧
    (event_handler hashFn fs cwd deser ser syncdir chan inputs).1.filter isSubscribePkg
      = [Package.Subscribe chan] := by
  constructor
  · simp [event_handler]
  · simp [event_handler, List.filter, isSubscribePkg,
      runLoop_no_subscribe hashFn fs cwd deser ser syncdir chan inputs]

end Syncd
